import Mathlib

set_option maxRecDepth 10000
set_option maxHeartbeats 1000000

/-!
Verification development for the OpenADMS Node observation routing and
scheduling engine.  The repository source tree at hand contains the system
documentation (module reference, system description, configuration examples);
the Python implementation of the core is not part of the tree, so the core
operations are modelled from the specification, while concrete data values
(the documented observation entities, schedules, and CSV lines) are
transcribed verbatim from the documentation files.
-/

/-- Exact decimal number, `mantissa / 10 ^ exp`.  JSON numbers in the wire
format and the values extracted by the PreProcessor are decimal literals, so
they are represented exactly. -/
structure Decimal where
  mantissa : Int
  exp : Nat
deriving DecidableEq, Repr

def Decimal.toRat (d : Decimal) : ℚ :=
  (d.mantissa : ℚ) / ((10 : ℚ) ^ d.exp)

/-- A typed measurement value of a ResponseSet: float, integer, or string. -/
inductive RSValue where
  | vFloat (d : Decimal)
  | vInt (i : Int)
  | vStr (s : String)
deriving DecidableEq, Repr

/-- ResponseSet: one extracted, typed measurement value with unit.  The
`value` is only present after extraction. -/
structure ResponseSet where
  type : String
  unit : String
  value : Option RSValue
deriving DecidableEq, Repr

/-- RequestSet: one command sent to a sensor and its raw response capture. -/
structure RequestSet where
  enabled : Bool
  request : String
  response : String
  responseDelimiter : String
  responsePattern : String
  sleepTime : Decimal
  timeout : Decimal
deriving DecidableEq, Repr

/-- Observation: one measurement cycle, the unit of exchange on the bus,
with the attribute set enumerated in the system description. -/
structure Observation where
  name : String
  type : String
  description : String
  sensorName : String
  sensorType : String
  target : String
  id : String
  pid : String
  nid : String
  timestamp : String
  enabled : Bool
  onetime : Bool
  portName : String
  passiveMode : Bool
  receivers : List String
  nextReceiver : Nat
  requestsOrder : List String
  requestSets : List (String × RequestSet)
  responseSets : List (String × ResponseSet)
  sleepTime : Decimal
deriving DecidableEq, Repr

/-- Lookup in an association list of named items, the shallow embedding of
access to a JSON object member. -/
def alookup {b : Type} : List (String × b) → String → Option b
  | [], _ => none
  | (k, v) :: rest, key => if key = k then some v else alookup rest key

/-- The finished observation `getValues` of the STS DTM meteorological
sensor, transcribed from the repository documentation (System Description,
Observation Entity).  The documentation lists `receivers` as the three
modules `com1`, `preProcessor`, `fileExporter` and `nextReceiver` as `4`. -/
def docGetValues : Observation :=
  { name := "getValues"
    type := "observation"
    description := "get sensor values (temperature, pressure)"
    sensorName := "stsDTM"
    sensorType := "weatherStation"
    target := "TempPress"
    id := "6dc84c06018043ba84ac90636ed0f677"
    pid := "6600055d61ce4d8698f77596e436785f"
    nid := "21bcf8c16a664b17bbc9cd4221fd8541"
    timestamp := "2017-04-05T21:48:00.805527"
    enabled := true
    onetime := false
    portName := "COM1"
    passiveMode := false
    receivers := ["com1", "preProcessor", "fileExporter"]
    nextReceiver := 4
    requestsOrder := ["getTemperature", "getPressure"]
    requestSets :=
      [("getTemperature",
        { enabled := true
          request := "TEMP ?\r"
          response := ">+23.1"
          responseDelimiter := "\r"
          responsePattern := "(?P<temperature>[+-]?\\d+\\.+\\d)"
          sleepTime := ⟨10, 1⟩
          timeout := ⟨10, 1⟩ }),
       ("getPressure",
        { enabled := true
          request := "PRES ?\r"
          response := ">+1011.3"
          responseDelimiter := "\r"
          responsePattern := "(?P<pressure>[+-]?\\d+\\.+\\d)"
          sleepTime := ⟨10, 1⟩
          timeout := ⟨10, 1⟩ })]
    responseSets :=
      [("temperature", { type := "float", unit := "C", value := some (.vStr "23.1") }),
       ("pressure", { type := "float", unit := "mbar", value := some (.vStr "1011.3") })]
    sleepTime := ⟨200, 1⟩ }

/-- Modelled from the spec: the module dispatch protocol of the handler base
class, whose Python implementation is not in the source tree.  A handler that
forwards an observation reads `receivers[nextReceiver]`; if the index is in
bounds it increments `nextReceiver` by one and publishes the observation to
that name; if it is out of bounds the chain terminates and nothing is
published. -/
def publishObservation (o : Observation) : Observation × Option String :=
  if h : o.nextReceiver < o.receivers.length then
    ({ o with nextReceiver := o.nextReceiver + 1 },
     some (o.receivers.get ⟨o.nextReceiver, h⟩))
  else
    (o, none)

/-- State reached after one dispatch hop. -/
def dispatchHop (o : Observation) : Observation :=
  (publishObservation o).1

/-- The receiver chain invariant claimed by the spec:
`0 <= nextReceiver <= len(receivers)`. -/
def chainInvariant (o : Observation) : Bool :=
  decide (o.nextReceiver ≤ o.receivers.length)

/-- The documented observation as it would leave the scheduler: same data,
with the receiver cursor at the start of the chain. -/
def docGetValuesStart : Observation :=
  { docGetValues with nextReceiver := 0 }

/-- A calendar date, compared lexicographically (year, month, day), the
order induced by the ISO date strings of the configuration. -/
structure Date where
  year : Nat
  month : Nat
  day : Nat
deriving DecidableEq, Repr

def Date.le (a b : Date) : Prop :=
  a.year < b.year ∨
    (a.year = b.year ∧
      (a.month < b.month ∨ (a.month = b.month ∧ a.day ≤ b.day)))

instance (a b : Date) : Decidable (Date.le a b) := by
  unfold Date.le
  infer_instance

/-- The seven weekday names of the scheduler configuration. -/
inductive Weekday where
  | monday
  | tuesday
  | wednesday
  | thursday
  | friday
  | saturday
  | sunday
deriving DecidableEq, Repr

/-- One time interval of a weekday, in seconds of the day, both bounds
inclusive. -/
structure TimeInterval where
  startTime : Nat
  endTime : Nat
deriving DecidableEq, Repr

/-- A schedule of a scheduler instance: inclusive date bounds, per-weekday
time intervals, and the observation names to trigger. -/
structure Schedule where
  enabled : Bool
  startDate : Date
  endDate : Date
  monday : List TimeInterval
  tuesday : List TimeInterval
  wednesday : List TimeInterval
  thursday : List TimeInterval
  friday : List TimeInterval
  saturday : List TimeInterval
  sunday : List TimeInterval
  observations : List String
deriving DecidableEq, Repr

def Schedule.intervalsOf (s : Schedule) (w : Weekday) : List TimeInterval :=
  match w with
  | .monday => s.monday
  | .tuesday => s.tuesday
  | .wednesday => s.wednesday
  | .thursday => s.thursday
  | .friday => s.friday
  | .saturday => s.saturday
  | .sunday => s.sunday

/-- True when no time interval is defined for any weekday of the schedule. -/
def Schedule.hasNoIntervals (s : Schedule) : Bool :=
  s.monday.isEmpty && s.tuesday.isEmpty && s.wednesday.isEmpty &&
    s.thursday.isEmpty && s.friday.isEmpty && s.saturday.isEmpty &&
    s.sunday.isEmpty

def TimeInterval.contains (iv : TimeInterval) (t : Nat) : Bool :=
  decide (iv.startTime ≤ t ∧ t ≤ iv.endTime)

/-- Modelled from the spec: the time-window test of the Scheduler, whose
Python implementation is not in the source tree.  An instant, given by its
date, weekday, and time of day in seconds, is active when the date lies in
the inclusive range of the schedule and either no interval is defined for
any weekday, or one of the intervals of the current weekday contains the
time of day, boundaries inclusive. -/
def Schedule.isActive (s : Schedule) (d : Date) (w : Weekday) (t : Nat) : Bool :=
  decide (Date.le s.startDate d) && decide (Date.le d s.endDate) &&
    (s.hasNoIntervals || (s.intervalsOf w).any (fun iv => iv.contains t))

/-- The schedule of the scheduler instance `schedulerCom1`, transcribed from
the repository documentation: active from 2016-02-01 to 2017-07-30, with the
monday intervals 00:00:00 to 08:00:00 and 10:00:00 to 23:59:59 and all other
weekdays left empty. -/
def docScheduleCom1 : Schedule :=
  { enabled := true
    startDate := ⟨2016, 2, 1⟩
    endDate := ⟨2017, 7, 30⟩
    monday := [⟨0, 28800⟩, ⟨36000, 86399⟩]
    tuesday := []
    wednesday := []
    thursday := []
    friday := []
    saturday := []
    sunday := []
    observations := ["doInit", "getTargetP1", "getTargetP2", "getTargetP3"] }

/-- The two communication modes of a port. -/
inductive PortMode where
  | active
  | passive
deriving DecidableEq, Repr

/-- An event seen by a port: an observation arriving on the bus, or a
complete inbound frame, delimited by the response delimiter, arriving from
the sensor. -/
inductive PortEvent where
  | recvObservation (o : Observation)
  | inboundFrame (frame : String)
deriving DecidableEq, Repr

/-- An externally visible action of a port: an outbound request sent to the
sensor, or a fresh observation synthesized from an inbound frame. -/
inductive PortAction where
  | sendRequest (data : String)
  | newObservation (frame : String)
deriving DecidableEq, Repr

/-- The outbound requests an observation demands in active mode: the enabled
request sets, in the order of requestsOrder. -/
def activeActions (o : Observation) : List PortAction :=
  o.requestsOrder.filterMap fun n =>
    (alookup o.requestSets n).bind fun rs =>
      if rs.enabled then some (.sendRequest rs.request) else none

/-- Modelled from the spec: the active/passive mode behaviour of the
SerialPort module, whose Python implementation is not in the source tree.
An observation with passiveMode true switches the port to passive mode
without sending anything; an observation with passiveMode false returns the
port to active mode and is executed by sending its requests.  A complete
inbound frame synthesizes a fresh observation in passive mode and is
consumed silently in active mode. -/
def portStep (m : PortMode) (e : PortEvent) : PortMode × List PortAction :=
  match e with
  | .recvObservation o =>
      if o.passiveMode then (.passive, []) else (.active, activeActions o)
  | .inboundFrame f =>
      match m with
      | .passive => (.passive, [.newObservation f])
      | .active => (.active, [])

/-- The mode of the port after processing a list of events. -/
def runMode (m : PortMode) (es : List PortEvent) : PortMode :=
  es.foldl (fun m e => (portStep m e).1) m

/-- An event that returns the port to active mode: an observation with
passiveMode false. -/
def deactivates : PortEvent → Bool
  | .recvObservation o => !o.passiveMode
  | .inboundFrame _ => false

def PortAction.isSend : PortAction → Bool
  | .sendRequest _ => true
  | .newObservation _ => false

/-- A concrete observation demanding passive mode, used to instantiate the
passive mode property. -/
def docPassiveObs : Observation :=
  { docGetValues with passiveMode := true }

/-- State of one Scheduler instance: the observation templates of its
sensor, the cyclic cursor into them, and the names of onetime observations
that have already fired. -/
structure SchedulerState where
  templates : List Observation
  cursor : Nat
  fired : List String
deriving DecidableEq, Repr

/-- Modelled from the spec: one selection step of the Scheduler, whose
Python implementation is not in the source tree.  Observation names are
taken cyclically from the template list; a disabled template is skipped, a
onetime template that has already fired is skipped permanently, and any
other template fires, recording its name when it is onetime. -/
def schedStep (st : SchedulerState) : SchedulerState × Option String :=
  match st.templates.get? (st.cursor % st.templates.length) with
  | none => (st, none)
  | some t =>
    if t.enabled = false then
      ({ st with cursor := st.cursor + 1 }, none)
    else if t.onetime && st.fired.contains t.name then
      ({ st with cursor := st.cursor + 1 }, none)
    else
      ({ st with
          cursor := st.cursor + 1
          fired := if t.onetime then t.name :: st.fired else st.fired },
       some t.name)

/-- The observation names fired during a number of scheduler cycles. -/
def schedRun (st : SchedulerState) (n : Nat) : List String :=
  match n with
  | 0 => []
  | n + 1 =>
    match schedStep st with
    | (st2, some x) => x :: schedRun st2 n
    | (st2, none) => schedRun st2 n

/-- A onetime variant of the documented observation, used to instantiate
the onetime property. -/
def docOnetimeTemplate : Observation :=
  { docGetValuesStart with onetime := true }

/-- Update the response of the request set with the given name, leaving all
other request sets unchanged. -/
def setResponse (sets : List (String × RequestSet)) (n r : String) :
    List (String × RequestSet) :=
  sets.map fun p => (p.1, if p.1 = n then { p.2 with response := r } else p.2)

/-- Modelled from the spec: the active-mode request cycle of a port over the
names of requestsOrder, whose Python implementation is not in the source
tree.  The oracle returns the raw response captured for a request, or none
when the timeout elapses with no complete response.  A timeout is
recoverable: the response of that request set stays as it was and the cycle
proceeds with the next name of requestsOrder. -/
def execRequests (order : List String) (sets : List (String × RequestSet))
    (oracle : String → Option String) : List (String × RequestSet) :=
  match order with
  | [] => sets
  | n :: rest =>
    match alookup sets n with
    | none => execRequests rest sets oracle
    | some rs =>
      if rs.enabled then
        match oracle n with
        | some r => execRequests rest (setResponse sets n r) oracle
        | none => execRequests rest sets oracle
      else
        execRequests rest sets oracle

/-- The getTemperature request set before any response has been captured. -/
def freshTempRS : RequestSet :=
  { enabled := true
    request := "TEMP ?\r"
    response := ""
    responseDelimiter := "\r"
    responsePattern := "(?P<temperature>[+-]?\\d+\\.+\\d)"
    sleepTime := ⟨10, 1⟩
    timeout := ⟨10, 1⟩ }

/-- The getPressure request set before any response has been captured. -/
def freshPresRS : RequestSet :=
  { enabled := true
    request := "PRES ?\r"
    response := ""
    responseDelimiter := "\r"
    responsePattern := "(?P<pressure>[+-]?\\d+\\.+\\d)"
    sleepTime := ⟨10, 1⟩
    timeout := ⟨10, 1⟩ }

/-- The request sets of the documented observation before execution. -/
def freshRequestSets : List (String × RequestSet) :=
  [("getTemperature", freshTempRS), ("getPressure", freshPresRS)]

/-- Modelled from the spec: the active-mode request cycle with time stamps,
whose Python implementation is not in the source tree.  The oracle returns
the raw response and the moment it was captured; the port stores the
response in the request set and sets the observation time stamp to the
moment of that capture, so the final time stamp is the moment the last
response was captured. -/
def execCycle (order : List String) (o : Observation)
    (oracle : String → Option (String × String)) : Observation :=
  match order with
  | [] => o
  | n :: rest =>
    match alookup o.requestSets n with
    | none => execCycle rest o oracle
    | some rs =>
      if rs.enabled then
        match oracle n with
        | some rt =>
            execCycle rest
              { o with
                  requestSets := setResponse o.requestSets n rt.1
                  timestamp := rt.2 } oracle
        | none => execCycle rest o oracle
      else
        execCycle rest o oracle

/-- The capture moments of the responses received during a request cycle,
in the order of requestsOrder. -/
def captureTimes (order : List String) (sets : List (String × RequestSet))
    (oracle : String → Option (String × String)) : List String :=
  match order with
  | [] => []
  | n :: rest =>
    match alookup sets n with
    | none => captureTimes rest sets oracle
    | some rs =>
      if rs.enabled then
        match oracle n with
        | some rt => rt.2 :: captureTimes rest sets oracle
        | none => captureTimes rest sets oracle
      else
        captureTimes rest sets oracle

/-- The documented observation before execution: request sets without
responses, response sets without values. -/
def docGetValuesFresh : Observation :=
  { docGetValuesStart with
      requestSets := freshRequestSets
      responseSets :=
        [("temperature", { type := "float", unit := "C", value := none }),
         ("pressure", { type := "float", unit := "mbar", value := none })] }

/-- A concrete response oracle: both documented requests are answered, each
capture carrying the moment it was received. -/
def docOracle : String → Option (String × String) := fun n =>
  if n = "getTemperature" then some (">+23.1", "2017-04-05T21:48:00.505527")
  else if n = "getPressure" then some (">+1011.3", "2017-04-05T21:48:00.805527")
  else none

/-- The Intercom bus: the set of topics that currently have a subscribed
handler module. -/
structure Intercom where
  subscriptions : List String
deriving DecidableEq, Repr

/-- The visible outcome of a publish call: the warnings logged and the
deliveries made to subscribers. -/
structure PublishResult where
  warnings : List String
  deliveries : List (String × Observation)
deriving DecidableEq, Repr

/-- Modelled from the spec: publish on the Intercom bus, whose Python
implementation is not in the source tree.  Publish is fire-and-forget: when
a subscriber exists for the topic the message is delivered to it, otherwise
a warning is logged and the message is dropped.  The call is a total
function: it always returns a result and never raises. -/
def Intercom.publish (bus : Intercom) (topic : String) (msg : Observation) :
    PublishResult :=
  if bus.subscriptions.contains topic then
    { warnings := [], deliveries := [(topic, msg)] }
  else
    { warnings := ["no subscriber for topic " ++ topic], deliveries := [] }

/-- One dispatch hop over the bus: determine the next receiver with the
dispatch protocol and publish the observation to it. -/
def forwardObservation (bus : Intercom) (o : Observation) :
    Observation × PublishResult :=
  match publishObservation o with
  | (o2, some receiver) => (o2, bus.publish receiver o2)
  | (o2, none) => (o2, { warnings := [], deliveries := [] })

/-- Digits of a natural number, left-padded with zeros to the given width,
the rendering of the fractional digits of a decimal. -/
def renderNatPadded (n : Nat) (width : Nat) : String :=
  let s := toString n
  String.mk (List.replicate (width - s.length) '0') ++ s

/-- Decimal literal rendering of an exact decimal number. -/
def renderDecimal (d : Decimal) : String :=
  let sign := if d.mantissa < 0 then "-" else ""
  let n := d.mantissa.natAbs
  if d.exp = 0 then sign ++ toString n
  else sign ++ toString (n / 10 ^ d.exp) ++ "." ++ renderNatPadded (n % 10 ^ d.exp) d.exp

/-- Text rendering of a response value in the CSV file. -/
def RSValue.render : RSValue → String
  | .vFloat d => renderDecimal d
  | .vInt i => toString i
  | .vStr s => s

def renderValueOpt : Option RSValue → String
  | none => ""
  | some v => v.render

/-- Alphabetical order on named response sets. -/
def rsKeyLE (a b : String × ResponseSet) : Prop := a.1 ≤ b.1

/-- Strict alphabetical order on named response sets. -/
def rsKeyLT (a b : String × ResponseSet) : Prop := a.1 < b.1

instance : DecidableRel rsKeyLE := fun a b =>
  inferInstanceAs (Decidable (a.1 ≤ b.1))

instance : IsTotal (String × ResponseSet) rsKeyLE :=
  ⟨fun a b => le_total a.1 b.1⟩

instance : IsTrans (String × ResponseSet) rsKeyLE :=
  ⟨fun _ _ _ h1 h2 => le_trans h1 h2⟩

instance : IsAntisymm (String × ResponseSet) rsKeyLT :=
  ⟨fun _ _ h1 h2 => ((lt_asymm h1) h2).elim⟩

/-- The response sets of an observation in alphabetical order of their
names. -/
def sortResponseSets (l : List (String × ResponseSet)) :
    List (String × ResponseSet) :=
  List.insertionSort rsKeyLE l

/-- The FileExporter options that shape one CSV line. -/
structure FileExporterConfig where
  separator : String
  saveObservationId : Bool
deriving DecidableEq, Repr

/-- Modelled from the spec: the CSV line the FileExporter writes for one
observation, whose Python implementation is not in the source tree.  Per the
FileExporter documentation, each line starts with date and time of the
observation, followed by the ID (when saveObservationId is set), the target
name, and all response sets in alphabetical order, each one rendered as
name, value, and unit; additional response sets are appended at the end. -/
def csvLine (cfg : FileExporterConfig) (o : Observation) : String :=
  let fields :=
    [o.timestamp] ++
      (if cfg.saveObservationId then [o.id] else []) ++
      [o.target] ++
      (sortResponseSets o.responseSets).flatMap
        (fun p => [p.1, renderValueOpt p.2.value, p.2.unit])
  String.intercalate cfg.separator fields

/-- The FileExporter configuration of the documented example line. -/
def docCsvConfig : FileExporterConfig :=
  { separator := ",", saveObservationId := true }

/-- The extensometer observation behind the documented CSV example line. -/
def docExtObservation : Observation :=
  { docGetValues with
      name := "doMeasure"
      sensorName := "Extensometer"
      target := "EXT"
      portName := "USB0"
      timestamp := "2016-10-09T15:29:38"
      responseSets :=
        [("Distance",
          { type := "float", unit := "mm", value := some (.vFloat ⟨19212, 3⟩) })] }

/-- The extensometer observation with a second response set, used to
instantiate order independence of the CSV line. -/
def docExtTwo : Observation :=
  { docExtObservation with
      responseSets :=
        [("Distance",
          { type := "float", unit := "mm", value := some (.vFloat ⟨19212, 3⟩) }),
         ("Angle",
          { type := "float", unit := "deg", value := some (.vFloat ⟨455, 1⟩) })] }

/-- A character class of the response patterns: an explicit set of
characters, the class of digits, or one literal character. -/
inductive CharClass where
  | oneOf (cs : List Char)
  | digit
  | lit (c : Char)
deriving DecidableEq, Repr

def clsMatch : CharClass → Char → Bool
  | .oneOf cs, c => cs.contains c
  | .digit, c => c.isDigit
  | .lit c0, c => c = c0

/-- A quantifier on one pattern atom: exactly one, at most one, or at least
one occurrence. -/
inductive Quant where
  | one
  | opt
  | plus
deriving DecidableEq, Repr

/-- One atom of a response pattern: a character class with a quantifier. -/
structure Atom where
  cls : CharClass
  quant : Quant
deriving DecidableEq, Repr

/-- Prepend a consumed character to the matched part of a match result. -/
def consMatch (c : Char) (r : Option (List Char × List Char)) :
    Option (List Char × List Char) :=
  r.map fun p => (c :: p.1, p.2)

/-- Greedy iteration of one character class: consume as many class members
as possible, backtracking into the continuation when the remainder of the
pattern cannot match otherwise. -/
def manyGreedy (cls : CharClass)
    (k : List Char → Option (List Char × List Char)) :
    List Char → Option (List Char × List Char)
  | [] => k []
  | c :: s =>
    if clsMatch cls c then
      match consMatch c (manyGreedy cls k s) with
      | some r => some r
      | none => k (c :: s)
    else
      k (c :: s)

/-- Match a sequence of pattern atoms at the start of the text, greedy with
backtracking, returning the consumed part and the remainder. -/
def tryAtoms : List Atom → List Char → Option (List Char × List Char)
  | [], s => some ([], s)
  | ⟨_, .one⟩ :: _, [] => none
  | ⟨cls, .one⟩ :: as, c :: s =>
    if clsMatch cls c then consMatch c (tryAtoms as s) else none
  | ⟨_, .opt⟩ :: as, [] => tryAtoms as []
  | ⟨cls, .opt⟩ :: as, c :: s =>
    if clsMatch cls c then
      match consMatch c (tryAtoms as s) with
      | some r => some r
      | none => tryAtoms as (c :: s)
    else
      tryAtoms as (c :: s)
  | ⟨_, .plus⟩ :: _, [] => none
  | ⟨cls, .plus⟩ :: as, c :: s =>
    if clsMatch cls c then consMatch c (manyGreedy cls (tryAtoms as) s) else none

/-- Leftmost search of the pattern in the text, as re.search does: try a
match at every position from the left and return the first consumed part. -/
def searchPattern (atoms : List Atom) : List Char → Option (List Char)
  | [] => (tryAtoms atoms []).map fun p => p.1
  | c :: s =>
    match tryAtoms atoms (c :: s) with
    | some p => some p.1
    | none => searchPattern atoms s

/-- Parse the body of a response pattern into atoms: a bracket class, an
escaped digit class or escaped literal, or a literal character, each
followed by an optional quantifier.  The fuel bounds the number of atoms and
exceeds it, since every atom consumes at least one character. -/
def parseAtomsFuel : Nat → List Char → Option (List Atom)
  | 0, _ => none
  | _ + 1, [] => some []
  | fuel + 1, cs =>
    let step : Option (CharClass × List Char) :=
      match cs with
      | '[' :: rest =>
        match rest.dropWhile (fun c => c ≠ ']') with
        | ']' :: rest2 => some (.oneOf (rest.takeWhile (fun c => c ≠ ']')), rest2)
        | _ => none
      | '\\' :: d :: rest =>
        if d = 'd' then some (.digit, rest) else some (.lit d, rest)
      | c :: rest => some (.lit c, rest)
      | [] => none
    match step with
    | none => none
    | some (cls, rest) =>
      match rest with
      | '?' :: rest2 =>
        (parseAtomsFuel fuel rest2).map fun atoms => ⟨cls, .opt⟩ :: atoms
      | '+' :: rest2 =>
        (parseAtomsFuel fuel rest2).map fun atoms => ⟨cls, .plus⟩ :: atoms
      | _ =>
        (parseAtomsFuel fuel rest).map fun atoms => ⟨cls, .one⟩ :: atoms

def parseAtoms (cs : List Char) : Option (List Atom) :=
  parseAtomsFuel (cs.length + 1) cs

/-- Compile a response pattern of the form (?P&lt;name&gt;body) into the group
name and the atoms of the body. -/
def compilePattern (pat : String) : Option (String × List Atom) :=
  match pat.toList with
  | '(' :: '?' :: 'P' :: '<' :: rest =>
    let name := rest.takeWhile fun c => c ≠ '>'
    match rest.dropWhile (fun c => c ≠ '>') with
    | '>' :: body =>
      if body.getLast? = some ')' then
        (parseAtoms body.dropLast).map fun atoms => (String.mk name, atoms)
      else none
    | _ => none
  | _ => none

def digitsToNat (ds : List Char) : Nat :=
  ds.foldl (fun a c => a * 10 + (c.toNat - 48)) 0

/-- Parse a decimal literal with optional sign and optional fractional
part into an exact decimal. -/
def parseDecimal (cs : List Char) : Option Decimal :=
  let signRest : Bool × List Char :=
    match cs with
    | '+' :: r => (false, r)
    | '-' :: r => (true, r)
    | r => (false, r)
  let neg := signRest.1
  let rest := signRest.2
  let ip := rest.takeWhile Char.isDigit
  let rest2 := rest.dropWhile Char.isDigit
  if ip = [] then none
  else
    match rest2 with
    | [] =>
      let m : Int := Int.ofNat (digitsToNat ip)
      some ⟨if neg then -m else m, 0⟩
    | '.' :: frac =>
      if frac ≠ [] ∧ frac.all Char.isDigit then
        let m : Int := Int.ofNat (digitsToNat (ip ++ frac))
        some ⟨if neg then -m else m, frac.length⟩
      else none
    | _ => none

/-- Convert an extracted substring to the data type declared by the
receiving response set. -/
def convertValue (ty : String) (s : String) : Option RSValue :=
  if ty = "float" then (parseDecimal s.toList).map .vFloat
  else if ty = "integer" then
    (parseDecimal s.toList).bind fun d =>
      if d.exp = 0 then some (.vInt d.mantissa) else none
  else if ty = "string" then some (.vStr s)
  else none

/-- Set the value of the response set with the given name. -/
def setValue (sets : List (String × ResponseSet)) (n : String) (v : RSValue) :
    List (String × ResponseSet) :=
  sets.map fun p => (p.1, if p.1 = n then { p.2 with value := some v } else p.2)

/-- Modelled from the spec: the PreProcessor, whose Python implementation is
not in the source tree.  For each name of requestsOrder it reads the raw
response of the request set, runs the response pattern over it, converts the
substring matched by the named group to the data type declared by the
response set of the same name, and stores the value there. -/
def preProcess (o : Observation) : Observation :=
  { o with
      responseSets := o.requestsOrder.foldl (fun sets n =>
        match alookup o.requestSets n with
        | none => sets
        | some rs =>
          match compilePattern rs.responsePattern with
          | none => sets
          | some g =>
            match searchPattern g.2 rs.response.toList with
            | none => sets
            | some matched =>
              match alookup sets g.1 with
              | none => sets
              | some target =>
                match convertValue target.type (String.mk matched) with
                | none => sets
                | some v => setValue sets g.1 v) o.responseSets }

/-- The documented observation after the port captured the raw responses
and before the PreProcessor ran: request sets hold the raw responses, the
response set values are still absent. -/
def docGetValuesCaptured : Observation :=
  { docGetValues with
      responseSets :=
        [("temperature", { type := "float", unit := "C", value := none }),
         ("pressure", { type := "float", unit := "mbar", value := none })] }

/-- A JSON value of the wire format: null, boolean, number (an exact
decimal literal), string, array, or object with named members. -/
inductive JValue where
  | jNull
  | jBool (b : Bool)
  | jNum (d : Decimal)
  | jStr (s : String)
  | jArr (xs : List JValue)
  | jObj (fields : List (String × JValue))

/-- Serialize a typed response value to JSON. -/
def RSValue.toJson : RSValue → JValue
  | .vFloat d => .jNum d
  | .vInt i => .jNum ⟨i, 0⟩
  | .vStr s => .jStr s

/-- Serialize a ResponseSet to its wire shape; the value member is present
exactly when the value has been extracted. -/
def ResponseSet.toJson (r : ResponseSet) : JValue :=
  .jObj
    ([("type", .jStr r.type), ("unit", .jStr r.unit)] ++
      (match r.value with
       | some v => [("value", v.toJson)]
       | none => []))

/-- Serialize a RequestSet to its wire shape. -/
def RequestSet.toJson (r : RequestSet) : JValue :=
  .jObj
    [("enabled", .jBool r.enabled),
     ("request", .jStr r.request),
     ("response", .jStr r.response),
     ("responseDelimiter", .jStr r.responseDelimiter),
     ("responsePattern", .jStr r.responsePattern),
     ("sleepTime", .jNum r.sleepTime),
     ("timeout", .jNum r.timeout)]

/-- Modelled from the spec: the Observation JSON wire shape, the object with
the fields enumerated in the system description, in the order of the
documented example. -/
def serializeObservation (o : Observation) : JValue :=
  .jObj
    [("name", .jStr o.name),
     ("type", .jStr o.type),
     ("description", .jStr o.description),
     ("sensorName", .jStr o.sensorName),
     ("sensorType", .jStr o.sensorType),
     ("timestamp", .jStr o.timestamp),
     ("target", .jStr o.target),
     ("id", .jStr o.id),
     ("pid", .jStr o.pid),
     ("nid", .jStr o.nid),
     ("enabled", .jBool o.enabled),
     ("onetime", .jBool o.onetime),
     ("receivers", .jArr (o.receivers.map .jStr)),
     ("nextReceiver", .jNum ⟨Int.ofNat o.nextReceiver, 0⟩),
     ("portName", .jStr o.portName),
     ("passiveMode", .jBool o.passiveMode),
     ("requestsOrder", .jArr (o.requestsOrder.map .jStr)),
     ("requestSets", .jObj (o.requestSets.map fun p => (p.1, p.2.toJson))),
     ("responseSets", .jObj (o.responseSets.map fun p => (p.1, p.2.toJson))),
     ("sleepTime", .jNum o.sleepTime)]

/-- Member access on a JSON object. -/
def jLookup (j : JValue) (k : String) : Option JValue :=
  match j with
  | .jObj fs => alookup fs k
  | _ => none

def asStr : Option JValue → Option String
  | some (.jStr s) => some s
  | _ => none

def asBool : Option JValue → Option Bool
  | some (.jBool b) => some b
  | _ => none

def asNum : Option JValue → Option Decimal
  | some (.jNum d) => some d
  | _ => none

def asNat : Option JValue → Option Nat
  | some (.jNum ⟨Int.ofNat n, 0⟩) => some n
  | _ => none

def strsOf : List JValue → Option (List String)
  | [] => some []
  | .jStr s :: rest => (strsOf rest).map fun l => s :: l
  | _ => none

def asStrList : Option JValue → Option (List String)
  | some (.jArr xs) => strsOf xs
  | _ => none

/-- Parse a RequestSet from its wire shape. -/
def parseRequestSet (j : JValue) : Option RequestSet := do
  let enabled ← asBool (jLookup j "enabled")
  let request ← asStr (jLookup j "request")
  let response ← asStr (jLookup j "response")
  let responseDelimiter ← asStr (jLookup j "responseDelimiter")
  let responsePattern ← asStr (jLookup j "responsePattern")
  let sleepTime ← asNum (jLookup j "sleepTime")
  let timeout ← asNum (jLookup j "timeout")
  pure ⟨enabled, request, response, responseDelimiter, responsePattern,
    sleepTime, timeout⟩

/-- Parse a response value according to the declared data type of its
response set. -/
def parseRSValue (ty : String) (j : JValue) : Option RSValue :=
  if ty = "float" then
    match j with
    | .jNum d => some (.vFloat d)
    | _ => none
  else if ty = "integer" then
    match j with
    | .jNum d => if d.exp = 0 then some (.vInt d.mantissa) else none
    | _ => none
  else if ty = "string" then
    match j with
    | .jStr s => some (.vStr s)
    | _ => none
  else none

/-- Parse a ResponseSet from its wire shape; an absent value member yields
an unpopulated response set. -/
def parseResponseSet (j : JValue) : Option ResponseSet := do
  let ty ← asStr (jLookup j "type")
  let unit ← asStr (jLookup j "unit")
  match jLookup j "value" with
  | none => pure ⟨ty, unit, none⟩
  | some jv => do
    let v ← parseRSValue ty jv
    pure ⟨ty, unit, some v⟩

/-- Parse every member of a JSON object with the given element parser. -/
def parsePairs {b : Type} (f : JValue → Option b) :
    List (String × JValue) → Option (List (String × b))
  | [] => some []
  | (k, v) :: rest => do
    let pv ← f v
    let prest ← parsePairs f rest
    pure ((k, pv) :: prest)

def asObjPairs {b : Type} (f : JValue → Option b) :
    Option JValue → Option (List (String × b))
  | some (.jObj fs) => parsePairs f fs
  | _ => none

/-- Parse the descriptive string members of the observation object. -/
def parseObsHead (j : JValue) :
    Option (String × String × String × String × String × String × String) := do
  let name ← asStr (jLookup j "name")
  let ty ← asStr (jLookup j "type")
  let description ← asStr (jLookup j "description")
  let sensorName ← asStr (jLookup j "sensorName")
  let sensorType ← asStr (jLookup j "sensorType")
  let timestamp ← asStr (jLookup j "timestamp")
  let target ← asStr (jLookup j "target")
  pure (name, ty, description, sensorName, sensorType, timestamp, target)

/-- Parse the identifier and flag members of the observation object. -/
def parseObsIds (j : JValue) :
    Option (String × String × String × Bool × Bool) := do
  let id ← asStr (jLookup j "id")
  let pid ← asStr (jLookup j "pid")
  let nid ← asStr (jLookup j "nid")
  let enabled ← asBool (jLookup j "enabled")
  let onetime ← asBool (jLookup j "onetime")
  pure (id, pid, nid, enabled, onetime)

/-- Parse the routing members of the observation object. -/
def parseObsRouting (j : JValue) :
    Option (List String × Nat × String × Bool) := do
  let receivers ← asStrList (jLookup j "receivers")
  let nextReceiver ← asNat (jLookup j "nextReceiver")
  let portName ← asStr (jLookup j "portName")
  let passiveMode ← asBool (jLookup j "passiveMode")
  pure (receivers, nextReceiver, portName, passiveMode)

/-- Parse the request and response members of the observation object. -/
def parseObsSets (j : JValue) :
    Option (List String × List (String × RequestSet) ×
      List (String × ResponseSet) × Decimal) := do
  let requestsOrder ← asStrList (jLookup j "requestsOrder")
  let requestSets ← asObjPairs parseRequestSet (jLookup j "requestSets")
  let responseSets ← asObjPairs parseResponseSet (jLookup j "responseSets")
  let sleepTime ← asNum (jLookup j "sleepTime")
  pure (requestsOrder, requestSets, responseSets, sleepTime)

/-- Modelled from the spec: parsing an Observation back from its wire
shape, member by member. -/
def parseObservation (j : JValue) : Option Observation := do
  let (name, ty, description, sensorName, sensorType, timestamp, target) ←
    parseObsHead j
  let (id, pid, nid, enabled, onetime) ← parseObsIds j
  let (receivers, nextReceiver, portName, passiveMode) ← parseObsRouting j
  let (requestsOrder, requestSets, responseSets, sleepTime) ← parseObsSets j
  pure ⟨name, ty, description, sensorName, sensorType, target, id, pid, nid,
    timestamp, enabled, onetime, portName, passiveMode, receivers,
    nextReceiver, requestsOrder, requestSets, responseSets, sleepTime⟩

/-- A value is of the data type its response set declares. -/
def RSValue.matchesType : RSValue → String → Bool
  | .vFloat _, ty => decide (ty = "float")
  | .vInt _, ty => decide (ty = "integer")
  | .vStr _, ty => decide (ty = "string")

def ResponseSet.wellTyped (r : ResponseSet) : Bool :=
  match r.value with
  | none => true
  | some v => v.matchesType r.type

def isHexDigit (c : Char) : Bool :=
  c.isDigit || (decide ('a' ≤ c) && decide (c ≤ 'f'))

/-- Shape check for the documented ISO-8601 time stamps,
YYYY-MM-DDTHH:MM:SS.ffffff. -/
def isIso8601 (s : String) : Bool :=
  let cs := s.toList
  decide (cs.length = 26) &&
    ([0, 1, 2, 3, 5, 6, 8, 9, 11, 12, 14, 15, 17, 18, 20, 21, 22, 23, 24,
      25].all fun i => (cs.getD i ' ').isDigit) &&
    ((cs.getD 4 ' ') == '-') && ((cs.getD 7 ' ') == '-') &&
    ((cs.getD 10 ' ') == 'T') && ((cs.getD 13 ' ') == ':') &&
    ((cs.getD 16 ' ') == ':') && ((cs.getD 19 ' ') == '.')

/-- A well-formed Observation of the wire format: every populated response
value is of its declared type, the id is a 32 character hex UUID4 without
dashes, and the time stamp is ISO-8601. -/
def Observation.wellFormed (o : Observation) : Bool :=
  o.responseSets.all (fun p => p.2.wellTyped) &&
    decide (o.id.length = 32) && o.id.toList.all isHexDigit &&
    isIso8601 o.timestamp

/-- The documented observation with its response values carried as typed
floats, the well-formed wire instance of the finished getValues
observation. -/
def wfGetValues : Observation :=
  { docGetValues with
      nextReceiver := 3
      responseSets :=
        [("temperature",
          { type := "float", unit := "C", value := some (.vFloat ⟨231, 1⟩) }),
         ("pressure",
          { type := "float", unit := "mbar", value := some (.vFloat ⟨10113, 1⟩) })] }

theorem publishObservation_preserves_chainInvariant (o : Observation)
    (h : chainInvariant o = true) : chainInvariant (dispatchHop o) = true := by
  unfold chainInvariant dispatchHop publishObservation
  by_cases hc : o.nextReceiver < o.receivers.length
  · simp [hc]
    omega
  · simp only [chainInvariant, decide_eq_true_eq] at h
    simp [hc, h]

/-- Claim C1: the spec states that dispatch increments `nextReceiver` by
exactly one per successful hop, that `0 <= nextReceiver <= len(receivers)`
always holds, and that the chain is finished exactly when
`nextReceiver = len(receivers)`.  The repository documentation, however,
prints the finished `getValues` observation with `nextReceiver = 4` although
it has only 3 receivers, a state that violates the claimed invariant and
that the increment-by-one protocol cannot even reach: starting the
documented chain at cursor 0, three hops end it at exactly 3, and a further
publish attempt leaves the observation unchanged and publishes nothing. -/
theorem C1_finished_observation_cursor_out_of_bounds :
    docGetValues.receivers.length = 3 ∧
    docGetValues.nextReceiver = 4 ∧
    chainInvariant docGetValues = false ∧
    (dispatchHop (dispatchHop (dispatchHop docGetValuesStart))).nextReceiver = 3 ∧
    publishObservation (dispatchHop (dispatchHop (dispatchHop docGetValuesStart))) =
      (dispatchHop (dispatchHop (dispatchHop docGetValuesStart)), none) := by
  refine ⟨rfl, rfl, rfl, rfl, ?_⟩
  decide

theorem hasNoIntervals_iff (s : Schedule) :
    s.hasNoIntervals = true ↔ ∀ w : Weekday, s.intervalsOf w = [] := by
  constructor
  · intro h
    simp only [Schedule.hasNoIntervals, Bool.and_eq_true, List.isEmpty_iff] at h
    obtain ⟨⟨⟨⟨⟨⟨h1, h2⟩, h3⟩, h4⟩, h5⟩, h6⟩, h7⟩ := h
    intro w
    cases w <;> simp [Schedule.intervalsOf, h1, h2, h3, h4, h5, h6, h7]
  · intro h
    have h1 := h Weekday.monday
    have h2 := h Weekday.tuesday
    have h3 := h Weekday.wednesday
    have h4 := h Weekday.thursday
    have h5 := h Weekday.friday
    have h6 := h Weekday.saturday
    have h7 := h Weekday.sunday
    simp only [Schedule.intervalsOf] at h1 h2 h3 h4 h5 h6 h7
    simp [Schedule.hasNoIntervals, List.isEmpty_iff, h1, h2, h3, h4, h5, h6, h7]

/-- Claim C2: an instant is active for a schedule exactly when its date lies
in the inclusive range from startDate to endDate and either no time interval
is defined for any weekday of the schedule, or some interval of the current
weekday contains the time of day with both boundaries inclusive; on the
documented monday intervals 00:00:00 to 08:00:00 and 10:00:00 to 23:59:59, a
Monday instant at 09:00:00 is inactive while 07:59:59 and 10:00:01 are
active. -/
theorem C2_schedule_time_window :
    (∀ (s : Schedule) (d : Date) (w : Weekday) (t : Nat),
      s.isActive d w t = true ↔
        (Date.le s.startDate d ∧ Date.le d s.endDate ∧
          ((∀ w2 : Weekday, s.intervalsOf w2 = []) ∨
            ∃ iv ∈ s.intervalsOf w, iv.startTime ≤ t ∧ t ≤ iv.endTime))) ∧
    docScheduleCom1.isActive ⟨2016, 2, 1⟩ .monday 32400 = false ∧
    docScheduleCom1.isActive ⟨2016, 2, 1⟩ .monday 28799 = true ∧
    docScheduleCom1.isActive ⟨2016, 2, 1⟩ .monday 36001 = true := by
  refine ⟨?_, by decide, by decide, by decide⟩
  intro s d w t
  rw [← hasNoIntervals_iff]
  simp [Schedule.isActive, TimeInterval.contains, List.any_eq_true, and_assoc]

theorem runMode_cons (m : PortMode) (e : PortEvent) (es : List PortEvent) :
    runMode m (e :: es) = runMode (portStep m e).1 es := rfl

theorem runMode_passive_of_no_deactivate (es : List PortEvent)
    (h : ∀ e ∈ es, deactivates e = false) : runMode .passive es = .passive := by
  induction es with
  | nil => rfl
  | cons e es ih =>
    have he := h e (by simp)
    have hrest : ∀ e2 ∈ es, deactivates e2 = false := fun e2 hm => h e2 (by simp [hm])
    rw [runMode_cons]
    cases e with
    | recvObservation o =>
      simp only [deactivates] at he
      simp at he
      simpa [portStep, he] using ih hrest
    | inboundFrame f =>
      simpa [portStep] using ih hrest

/-- Claim C3: after a port receives an observation with passiveMode true and
as long as no observation with passiveMode false has arrived since, the port
sends no outbound request on any further event, and every complete inbound
frame synthesizes exactly one fresh observation. -/
theorem C3_passive_mode_no_send (m0 : PortMode) (pre mid : List PortEvent)
    (o : Observation) (e : PortEvent)
    (hpass : o.passiveMode = true)
    (hmid : ∀ e2 ∈ mid, deactivates e2 = false)
    (he : deactivates e = false) :
    (∀ a ∈ (portStep (runMode m0 (pre ++ .recvObservation o :: mid)) e).2,
        a.isSend = false) ∧
    (∀ f, e = .inboundFrame f →
      (portStep (runMode m0 (pre ++ .recvObservation o :: mid)) e).2 =
        [.newObservation f]) := by
  have hmode : runMode m0 (pre ++ .recvObservation o :: mid) = .passive := by
    rw [runMode, List.foldl_append, List.foldl_cons]
    simp only [portStep, hpass, if_pos]
    show runMode .passive mid = .passive
    exact runMode_passive_of_no_deactivate mid hmid
  rw [hmode]
  cases e with
  | recvObservation o2 =>
    simp only [deactivates] at he
    simp at he
    simp [portStep, he, PortAction.isSend]
  | inboundFrame f =>
    simp [portStep, PortAction.isSend]

theorem C3_passive_mode_no_send_witness :
    (∀ a ∈ (portStep (runMode .active
        ([] ++ .recvObservation docPassiveObs :: [.inboundFrame "25.1"]))
        (.inboundFrame "25.2")).2, a.isSend = false) ∧
    (∀ f, (.inboundFrame "25.2" : PortEvent) = .inboundFrame f →
      (portStep (runMode .active
        ([] ++ .recvObservation docPassiveObs :: [.inboundFrame "25.1"]))
        (.inboundFrame "25.2")).2 = [.newObservation f]) :=
  C3_passive_mode_no_send .active [] [.inboundFrame "25.1"] docPassiveObs
    (.inboundFrame "25.2") (by decide) (by decide) (by decide)

theorem schedStep_templates (st : SchedulerState) :
    (schedStep st).1.templates = st.templates := by
  unfold schedStep
  split
  · rfl
  · split
    · rfl
    · split
      · rfl
      · rfl

theorem schedStep_fired_mono (st : SchedulerState) (nm : String)
    (h : nm ∈ st.fired) : nm ∈ (schedStep st).1.fired := by
  unfold schedStep
  split
  · exact h
  · split
    · exact h
    · split
      · exact h
      · dsimp only
        split
        · exact List.mem_cons_of_mem _ h
        · exact h

theorem schedRun_count_zero_of_fired (n : Nat) (st : SchedulerState)
    (nm : String)
    (hall : ∀ u ∈ st.templates, u.name = nm → u.onetime = true)
    (hf : nm ∈ st.fired) :
    (schedRun st n).count nm = 0 := by
  induction n generalizing st with
  | zero => rfl
  | succ n ih =>
    unfold schedRun
    rcases hstep : schedStep st with ⟨st2, x⟩
    have htmpl : st2.templates = st.templates := by
      have h2 := schedStep_templates st
      rw [hstep] at h2
      exact h2
    have hf2 : nm ∈ st2.fired := by
      have h2 := schedStep_fired_mono st nm hf
      rw [hstep] at h2
      exact h2
    have hall2 : ∀ u ∈ st2.templates, u.name = nm → u.onetime = true := by
      rw [htmpl]
      exact hall
    cases x with
    | none => exact ih st2 hall2 hf2
    | some y =>
      have hy : y ≠ nm := by
        intro heq
        subst heq
        unfold schedStep at hstep
        rcases hget : st.templates.get? (st.cursor % st.templates.length) with _ | t
        · rw [hget] at hstep
          exact absurd hstep (by simp)
        · rw [hget] at hstep
          dsimp only at hstep
          have htmem : t ∈ st.templates := List.get?_mem hget
          by_cases h1 : t.enabled = false
          · rw [if_pos h1] at hstep
            exact absurd hstep (by simp)
          · rw [if_neg h1] at hstep
            by_cases h2 : (t.onetime && st.fired.contains t.name) = true
            · rw [if_pos h2] at hstep
              exact absurd hstep (by simp)
            · rw [if_neg h2] at hstep
              have hname : t.name = y := by
                have h3 := congrArg Prod.snd hstep
                simpa using h3
              have hone : t.onetime = true := hall t htmem hname
              have hcont : st.fired.contains t.name = true := by
                rw [hname]
                exact List.elem_iff.mpr hf
              rw [hone, hcont] at h2
              exact h2 rfl
      simp [List.count_cons, ih st2 hall2 hf2, Ne.symm hy]

/-- Claim C6: the Scheduler fires an observation template with onetime true
at most once across the process lifetime: in any run, when every template
named like it is onetime, its name appears at most once among the fired
observations. -/
theorem C6_onetime_fires_at_most_once (st : SchedulerState) (n : Nat)
    (t : Observation) (ht : t ∈ st.templates) (hone : t.onetime = true)
    (hall : ∀ u ∈ st.templates, u.name = t.name → u.onetime = true) :
    (schedRun st n).count t.name ≤ 1 := by
  induction n generalizing st with
  | zero => simp [schedRun]
  | succ n ih =>
    unfold schedRun
    rcases hstep : schedStep st with ⟨st2, x⟩
    have htmpl : st2.templates = st.templates := by
      have h2 := schedStep_templates st
      rw [hstep] at h2
      exact h2
    have hall2 : ∀ u ∈ st2.templates, u.name = t.name → u.onetime = true := by
      rw [htmpl]
      exact hall
    have ht2 : t ∈ st2.templates := by
      rw [htmpl]
      exact ht
    cases x with
    | none => exact ih st2 ht2 hall2
    | some y =>
      by_cases hy : y = t.name
      · subst hy
        have hfired : t.name ∈ st2.fired := by
          unfold schedStep at hstep
          rcases hget : st.templates.get? (st.cursor % st.templates.length) with _ | u
          · rw [hget] at hstep
            exact absurd hstep (by simp)
          · rw [hget] at hstep
            dsimp only at hstep
            have humem : u ∈ st.templates := List.get?_mem hget
            by_cases h1 : u.enabled = false
            · rw [if_pos h1] at hstep
              exact absurd hstep (by simp)
            · rw [if_neg h1] at hstep
              by_cases h2 : (u.onetime && st.fired.contains u.name) = true
              · rw [if_pos h2] at hstep
                exact absurd hstep (by simp)
              · rw [if_neg h2] at hstep
                have hname : u.name = t.name := by
                  have h3 := congrArg Prod.snd hstep
                  simpa using h3
                have huone : u.onetime = true := hall u humem hname
                have hst2 : st2 = { st with
                    cursor := st.cursor + 1
                    fired := if u.onetime = true then u.name :: st.fired else st.fired } := by
                  have h3 := congrArg Prod.fst hstep
                  simpa using h3.symm
                rw [hst2]
                simp [huone, hname]
        have hzero : (schedRun st2 n).count t.name = 0 :=
          schedRun_count_zero_of_fired n st2 t.name hall2 hfired
        simp [List.count_cons, hzero]
      · simp only [List.count_cons]
        have hbeq : (y == t.name) = false := by
          simp [beq_iff_eq]
          exact hy
        rw [hbeq]
        simpa using ih st2 ht2 hall2

theorem C6_onetime_fires_at_most_once_witness :
    (schedRun ⟨[docOnetimeTemplate], 0, []⟩ 5).count docOnetimeTemplate.name ≤ 1 :=
  C6_onetime_fires_at_most_once ⟨[docOnetimeTemplate], 0, []⟩ 5
    docOnetimeTemplate (by decide) (by decide) (by decide)

theorem alookup_setResponse (sets : List (String × RequestSet)) (n r m : String) :
    alookup (setResponse sets n r) m =
      (alookup sets m).map
        (fun rs => if m = n then { rs with response := r } else rs) := by
  induction sets with
  | nil => rfl
  | cons p rest ih =>
    rcases p with ⟨k, v⟩
    by_cases hm : m = k
    · subst hm
      by_cases hk : m = n
      · subst hk
        simp [setResponse, alookup]
      · simp [setResponse, alookup, hk]
    · simp only [setResponse, List.map_cons] at ih ⊢
      simp [alookup, hm, ih]

theorem alookup_setResponse_ne (sets : List (String × RequestSet)) (n r m : String)
    (h : m ≠ n) : alookup (setResponse sets n r) m = alookup sets m := by
  rw [alookup_setResponse]
  cases alookup sets m with
  | none => rfl
  | some rs => simp [h]

theorem execRequests_lookup_of_timeout (order : List String)
    (sets : List (String × RequestSet)) (oracle : String → Option String)
    (nm : String) (hor : oracle nm = none) :
    alookup (execRequests order sets oracle) nm = alookup sets nm := by
  induction order generalizing sets with
  | nil => rfl
  | cons n rest ih =>
    unfold execRequests
    rcases hl : alookup sets n with _ | rs
    · exact ih sets
    · by_cases hen : rs.enabled = true
      · rcases horn : oracle n with _ | r
        · simp only [hen, if_pos]
          exact ih sets
        · have hne : nm ≠ n := by
            intro heq
            rw [heq, horn] at hor
            exact Option.noConfusion hor
          simp only [hen, if_pos]
          rw [ih (setResponse sets n r)]
          exact alookup_setResponse_ne sets n r nm hne
      · simp only [hen, if_neg, if_false]
        exact ih sets

/-- Claim C7: a timeout of an individual request is recoverable: the request
cycle does not fail, the timed-out request set keeps its response unchanged
(it stays empty when it started empty), and the cycle proceeds exactly as if
it had started at the next name of requestsOrder. -/
theorem C7_timeout_is_recoverable (nm : String) (rest : List String)
    (sets : List (String × RequestSet)) (oracle : String → Option String)
    (rs : RequestSet) (hl : alookup sets nm = some rs) (hen : rs.enabled = true)
    (hor : oracle nm = none) :
    execRequests (nm :: rest) sets oracle = execRequests rest sets oracle ∧
    alookup (execRequests (nm :: rest) sets oracle) nm = some rs := by
  have hstep : execRequests (nm :: rest) sets oracle = execRequests rest sets oracle := by
    unfold execRequests
    rw [hl]
    simp only [hen, if_pos, hor]
    cases rest <;> rfl
  refine ⟨hstep, ?_⟩
  rw [hstep, execRequests_lookup_of_timeout rest sets oracle nm hor]
  exact hl

theorem C7_timeout_is_recoverable_witness :
    (execRequests ["getTemperature", "getPressure"] freshRequestSets (fun _ => none) =
      execRequests ["getPressure"] freshRequestSets (fun _ => none)) ∧
    alookup (execRequests ["getTemperature", "getPressure"] freshRequestSets
      (fun _ => none)) "getTemperature" = some freshTempRS :=
  C7_timeout_is_recoverable "getTemperature" ["getPressure"] freshRequestSets
    (fun _ => none) freshTempRS (by decide) (by decide) rfl

theorem captureTimes_setResponse (order : List String)
    (sets : List (String × RequestSet)) (n r : String)
    (oracle : String → Option (String × String)) :
    captureTimes order (setResponse sets n r) oracle =
      captureTimes order sets oracle := by
  induction order with
  | nil => rfl
  | cons a rest ih =>
    unfold captureTimes
    rw [alookup_setResponse]
    rcases hl : alookup sets a with _ | rs
    · exact ih
    · have hen : (if a = n then { rs with response := r } else rs).enabled = rs.enabled := by
        split <;> rfl
      simp only [Option.map_some']
      rw [hen]
      by_cases he : rs.enabled = true
      · rw [if_pos he, if_pos he]
        rcases oracle a with _ | rt
        · exact ih
        · rw [ih]
      · rw [if_neg he, if_neg he]
        exact ih

theorem execCycle_timestamp_of_no_capture (order : List String) (o : Observation)
    (oracle : String → Option (String × String))
    (h : captureTimes order o.requestSets oracle = []) :
    (execCycle order o oracle).timestamp = o.timestamp := by
  induction order generalizing o with
  | nil => rfl
  | cons n rest ih =>
    unfold execCycle
    unfold captureTimes at h
    rcases hl : alookup o.requestSets n with _ | rs
    · rw [hl] at h
      exact ih o h
    · rw [hl] at h
      dsimp only at h ⊢
      by_cases he : rs.enabled = true
      · rw [if_pos he] at h ⊢
        rcases horacle : oracle n with _ | rt
        · rw [horacle] at h
          exact ih o h
        · rw [horacle] at h
          simp at h
      · rw [if_neg he] at h ⊢
        exact ih o h

/-- Claim C9: the time stamp of an observation executed by a port in active
mode equals the moment the final response was captured: after the request
cycle, the observation carries the capture moment of the last response that
arrived. -/
theorem C9_timestamp_is_last_capture (order : List String) (o : Observation)
    (oracle : String → Option (String × String)) (tau : String)
    (h : (captureTimes order o.requestSets oracle).getLast? = some tau) :
    (execCycle order o oracle).timestamp = tau := by
  induction order generalizing o with
  | nil => simp [captureTimes] at h
  | cons n rest ih =>
    unfold execCycle
    unfold captureTimes at h
    rcases hl : alookup o.requestSets n with _ | rs
    · rw [hl] at h
      exact ih o h
    · rw [hl] at h
      dsimp only at h ⊢
      by_cases he : rs.enabled = true
      · rw [if_pos he] at h ⊢
        rcases horacle : oracle n with _ | rt
        · rw [horacle] at h
          exact ih o h
        · rw [horacle] at h
          dsimp only at h
          rcases hcl : captureTimes rest o.requestSets oracle with _ | ⟨c, cs⟩
          · rw [hcl] at h
            have htau : rt.2 = tau := by simpa using h
            have hnone : captureTimes rest (setResponse o.requestSets n rt.1) oracle = [] := by
              rw [captureTimes_setResponse, hcl]
            exact (execCycle_timestamp_of_no_capture rest _ oracle hnone).trans htau
          · have h2 : (captureTimes rest (setResponse o.requestSets n rt.1) oracle).getLast? = some tau := by
              rw [captureTimes_setResponse, hcl]
              rw [hcl] at h
              rw [List.getLast?_cons_cons] at h
              exact h
            exact ih _ h2
      · rw [if_neg he] at h ⊢
        exact ih o h

theorem C9_timestamp_is_last_capture_witness :
    (execCycle ["getTemperature", "getPressure"] docGetValuesFresh
      docOracle).timestamp = "2017-04-05T21:48:00.805527" :=
  C9_timestamp_is_last_capture ["getTemperature", "getPressure"]
    docGetValuesFresh docOracle "2017-04-05T21:48:00.805527" (by decide)

/-- Claim C8: a publish call for a topic without subscriber returns normally
with a logged warning and no delivery; consequently a dispatch hop whose
next receiver is not subscribed delivers the observation to nobody, so the
receiver chain does not continue past that point and nothing is raised. -/
theorem C8_publish_without_subscriber (bus : Intercom) (topic : String)
    (msg : Observation)
    (h : bus.subscriptions.contains topic = false) :
    bus.publish topic msg =
      { warnings := ["no subscriber for topic " ++ topic], deliveries := [] } ∧
    (∀ o o2 : Observation, publishObservation o = (o2, some topic) →
      (forwardObservation bus o).2.deliveries = []) := by
  have hp : bus.publish topic msg =
      { warnings := ["no subscriber for topic " ++ topic], deliveries := [] } := by
    unfold Intercom.publish
    rw [h]
    simp
  refine ⟨hp, ?_⟩
  intro o o2 hpub
  unfold forwardObservation
  rw [hpub]
  dsimp only
  unfold Intercom.publish
  rw [h]
  simp

theorem C8_publish_without_subscriber_witness :
    ((⟨["com1", "preProcessor"]⟩ : Intercom).publish "fileExporter" docGetValuesStart =
      { warnings := ["no subscriber for topic " ++ "fileExporter"], deliveries := [] }) ∧
    (∀ o o2 : Observation, publishObservation o = (o2, some "fileExporter") →
      (forwardObservation ⟨["com1", "preProcessor"]⟩ o).2.deliveries = []) :=
  C8_publish_without_subscriber ⟨["com1", "preProcessor"]⟩ "fileExporter"
    docGetValuesStart (by decide)

theorem sortResponseSets_eq_of_perm (l1 l2 : List (String × ResponseSet))
    (hp : l1.Perm l2) (hn : (l1.map Prod.fst).Nodup) :
    sortResponseSets l1 = sortResponseSets l2 := by
  have s1 : List.Sorted rsKeyLE (sortResponseSets l1) :=
    List.sorted_insertionSort rsKeyLE l1
  have s2 : List.Sorted rsKeyLE (sortResponseSets l2) :=
    List.sorted_insertionSort rsKeyLE l2
  have q : (sortResponseSets l1).Perm (sortResponseSets l2) :=
    (List.perm_insertionSort rsKeyLE l1).trans
      (hp.trans (List.perm_insertionSort rsKeyLE l2).symm)
  have hn1 : ((sortResponseSets l1).map Prod.fst).Nodup := by
    have hperm : (sortResponseSets l1).Perm l1 := List.perm_insertionSort rsKeyLE l1
    exact ((hperm.map Prod.fst).nodup_iff).mpr hn
  have hn2 : ((sortResponseSets l2).map Prod.fst).Nodup := by
    have hperm : ((sortResponseSets l1).map Prod.fst).Perm
        ((sortResponseSets l2).map Prod.fst) := q.map Prod.fst
    exact hperm.nodup_iff.mp hn1
  have hd1 : List.Pairwise (fun a b : String × ResponseSet => a.1 ≠ b.1)
      (sortResponseSets l1) := List.pairwise_map.mp hn1
  have hd2 : List.Pairwise (fun a b : String × ResponseSet => a.1 ≠ b.1)
      (sortResponseSets l2) := List.pairwise_map.mp hn2
  have hlt1 : List.Sorted rsKeyLT (sortResponseSets l1) :=
    (List.Pairwise.and s1 hd1).imp fun h => lt_of_le_of_ne h.1 h.2
  have hlt2 : List.Sorted rsKeyLT (sortResponseSets l2) :=
    (List.Pairwise.and s2 hd2).imp fun h => lt_of_le_of_ne h.1 h.2
  exact List.eq_of_perm_of_sorted q hlt1 hlt2

/-- Claim C10: the FileExporter CSV line starts with date and time, then the
observation id when saveObservationId is set, then the target name, then all
response sets in alphabetical order of their names, each rendered as name,
value, and unit; the response sets are always emitted sorted, so the line
does not depend on the key order of the responseSets mapping.  On the
documented extensometer example the line is reproduced verbatim. -/
theorem C10_csv_line_format :
    csvLine docCsvConfig docExtObservation =
      "2016-10-09T15:29:38,6dc84c06018043ba84ac90636ed0f677,EXT,Distance,19.212,mm" ∧
    (∀ l : List (String × ResponseSet),
      List.Sorted rsKeyLE (sortResponseSets l)) ∧
    (∀ (cfg : FileExporterConfig) (o : Observation)
        (l2 : List (String × ResponseSet)),
      o.responseSets.Perm l2 → (o.responseSets.map Prod.fst).Nodup →
      csvLine cfg { o with responseSets := l2 } = csvLine cfg o) := by
  refine ⟨by decide, fun l => List.sorted_insertionSort rsKeyLE l, ?_⟩
  intro cfg o l2 hp hn
  unfold csvLine
  dsimp only
  rw [sortResponseSets_eq_of_perm l2 o.responseSets hp.symm
    ((hp.map Prod.fst).nodup_iff.mp hn)]

theorem C10_csv_line_format_witness :
    csvLine docCsvConfig
      { docExtTwo with
          responseSets :=
            [("Angle",
              { type := "float", unit := "deg", value := some (.vFloat ⟨455, 1⟩) }),
             ("Distance",
              { type := "float", unit := "mm", value := some (.vFloat ⟨19212, 3⟩) })] } =
      csvLine docCsvConfig docExtTwo :=
  C10_csv_line_format.2.2 docCsvConfig docExtTwo
    [("Angle",
      { type := "float", unit := "deg", value := some (.vFloat ⟨455, 1⟩) }),
     ("Distance",
      { type := "float", unit := "mm", value := some (.vFloat ⟨19212, 3⟩) })]
    (by decide) (by decide)

/-- Claim C4: on the documented getValues observation with requestsOrder
getTemperature, getPressure, the documented response patterns, and the raw
responses from the sensor, the PreProcessor extracts the matched substrings,
converts them to the declared type float, and stores in the response sets
the numeric values 23.1 with unit C and 1011.3 with unit mbar. -/
theorem C4_preprocessor_extracts_and_converts :
    (preProcess docGetValuesCaptured).responseSets =
      [("temperature",
        { type := "float", unit := "C", value := some (.vFloat ⟨231, 1⟩) }),
       ("pressure",
        { type := "float", unit := "mbar", value := some (.vFloat ⟨10113, 1⟩) })] ∧
    Decimal.toRat ⟨231, 1⟩ = (23.1 : ℚ) ∧
    Decimal.toRat ⟨10113, 1⟩ = (1011.3 : ℚ) := by
  refine ⟨by decide, ?_, ?_⟩ <;> norm_num [Decimal.toRat]

theorem strsOf_map_jStr (l : List String) :
    strsOf (l.map JValue.jStr) = some l := by
  induction l with
  | nil => rfl
  | cons a rest ih => simp [strsOf, ih]

theorem parseRequestSet_toJson (r : RequestSet) :
    parseRequestSet r.toJson = some r := rfl

theorem parseResponseSet_toJson (r : ResponseSet) (h : r.wellTyped = true) :
    parseResponseSet r.toJson = some r := by
  rcases r with ⟨ty, unit, value⟩
  cases value with
  | none => rfl
  | some v =>
    cases v with
    | vFloat d =>
      simp only [ResponseSet.wellTyped, RSValue.matchesType,
        decide_eq_true_eq] at h
      subst h
      rfl
    | vInt i =>
      simp only [ResponseSet.wellTyped, RSValue.matchesType,
        decide_eq_true_eq] at h
      subst h
      rfl
    | vStr s =>
      simp only [ResponseSet.wellTyped, RSValue.matchesType,
        decide_eq_true_eq] at h
      subst h
      rfl

theorem parsePairs_map {b : Type} (f : JValue → Option b) (g : b → JValue)
    (l : List (String × b)) (h : ∀ p ∈ l, f (g p.2) = some p.2) :
    parsePairs f (l.map fun p => (p.1, g p.2)) = some l := by
  induction l with
  | nil => rfl
  | cons p rest ih =>
    have hp := h p (by simp)
    have hrest : ∀ q ∈ rest, f (g q.2) = some q.2 := fun q hq => h q (by simp [hq])
    simp [parsePairs, hp, ih hrest]

theorem parseObsHead_serialize (o : Observation) :
    parseObsHead (serializeObservation o) =
      some (o.name, o.type, o.description, o.sensorName, o.sensorType,
        o.timestamp, o.target) := rfl

theorem parseObsIds_serialize (o : Observation) :
    parseObsIds (serializeObservation o) =
      some (o.id, o.pid, o.nid, o.enabled, o.onetime) := rfl

theorem parseObsRouting_serialize (o : Observation) :
    parseObsRouting (serializeObservation o) =
      some (o.receivers, o.nextReceiver, o.portName, o.passiveMode) := by
  simp [parseObsRouting, serializeObservation, jLookup, alookup, asStrList,
    asNat, asStr, asBool, strsOf_map_jStr]

theorem parseObsSets_serialize (o : Observation)
    (h : o.responseSets.all (fun p => p.2.wellTyped) = true) :
    parseObsSets (serializeObservation o) =
      some (o.requestsOrder, o.requestSets, o.responseSets, o.sleepTime) := by
  have h1 := strsOf_map_jStr o.requestsOrder
  have h2 := parsePairs_map parseRequestSet RequestSet.toJson o.requestSets
    (fun p _ => parseRequestSet_toJson p.2)
  have h3 := parsePairs_map parseResponseSet ResponseSet.toJson o.responseSets
    (fun p hp => parseResponseSet_toJson p.2 (by
      rw [List.all_eq_true] at h
      exact h p hp))
  simp [parseObsSets, serializeObservation, jLookup, alookup, asStrList,
    asObjPairs, asNum, h1, h2, h3]

theorem parse_serialize (o : Observation)
    (h : o.responseSets.all (fun p => p.2.wellTyped) = true) :
    parseObservation (serializeObservation o) = some o := by
  simp [parseObservation, parseObsHead_serialize, parseObsIds_serialize,
    parseObsRouting_serialize, parseObsSets_serialize o h]

/-- Claim C5: serializing an Observation to the wire-format JSON and
parsing it back yields the original observation field for field, and in the
wire format the id member is the 32 character hex UUID4 of the observation
(no dashes) while the timestamp member is its ISO-8601 time stamp. -/
theorem C5_wire_roundtrip (o : Observation) (h : o.wellFormed = true) :
    parseObservation (serializeObservation o) = some o ∧
    jLookup (serializeObservation o) "id" = some (.jStr o.id) ∧
    o.id.length = 32 ∧
    o.id.toList.all isHexDigit = true ∧
    jLookup (serializeObservation o) "timestamp" = some (.jStr o.timestamp) ∧
    isIso8601 o.timestamp = true := by
  simp only [Observation.wellFormed, Bool.and_eq_true, decide_eq_true_eq] at h
  obtain ⟨⟨⟨ha, hb⟩, hc⟩, hd⟩ := h
  exact ⟨parse_serialize o ha, rfl, hb, hc, rfl, hd⟩

theorem C5_wire_roundtrip_witness :
    parseObservation (serializeObservation wfGetValues) = some wfGetValues ∧
    jLookup (serializeObservation wfGetValues) "id" =
      some (.jStr wfGetValues.id) ∧
    wfGetValues.id.length = 32 ∧
    wfGetValues.id.toList.all isHexDigit = true ∧
    jLookup (serializeObservation wfGetValues) "timestamp" =
      some (.jStr wfGetValues.timestamp) ∧
    isIso8601 wfGetValues.timestamp = true :=
  C5_wire_roundtrip wfGetValues (by decide)
